import Mathlib

/-!
Verification development for the HMS-Portal application-ingestion and
interview-scheduling core.

The definitions below are a shallow embedding of the Python sources:

* `src/modules/calendar_handler.py` — `find_available_slots` (the slot-search
  walk over busy intervals);
* `src/modules/ai_classifier.py` — `extract_info`, `_parse_and_clean_response`,
  `_normalize_domain` and the three backend wrappers;
* `src/modules/database_handler.py` — `insert_applicant_and_communication`,
  `insert_communication`, `update_applicant_thread_id`, `get_active_threads`;
* `src/processing_engine.py` — `_process_single_email`,
  `_process_new_applications`, `_process_replies`.

Time is modelled as minutes since a reference Monday 00:00 in the scheduling
timezone (Asia/Kolkata).  That timezone has no DST, so `datetime` plus
`timedelta` arithmetic is plain minute arithmetic; `find_available_slots`
zeroes seconds and microseconds on its cursor, so minute granularity is exact
for the cursor.  Python `weekday()` numbering is kept: 0 = Monday,
5 = Saturday, 6 = Sunday.

Network collaborators (Gmail, Drive, the LLM backends, the Google Calendar
event list) are modelled as explicit oracle values: the per-message attachment,
drive-upload and classification outcomes are fields or function arguments, and
the calendar's busy intervals are an input list, exactly as the spec treats
them (collaborator interfaces, section 6).  The relational store is modelled
as in-memory lists of rows; a reachable database connection is assumed
(the `if not self.conn` guards are early no-op returns, outside every claim).
-/

/-! ## Time model and `find_available_slots` (calendar_handler.py) -/

/-- Minute of the day of a timestamp `t` given in minutes, in `[0, 1440)`. -/
def minuteOfDay (t : Nat) : Nat := t % 1440

/-- Local hour of a timestamp in minutes, `datetime.hour`. -/
def hourOf (t : Nat) : Nat := t % 1440 / 60

/-- Minute of the hour of a timestamp in minutes, `datetime.minute`. -/
def minuteOf (t : Nat) : Nat := t % 60

/-- Calendar-day index of a timestamp in minutes. -/
def dayOf (t : Nat) : Nat := t / 1440

/-- Python `datetime.weekday()`: 0 = Monday, …, 5 = Saturday, 6 = Sunday
(day 0 of the model is a Monday). -/
def weekdayOf (t : Nat) : Nat := t / 1440 % 7

/-- Initial cursor of `find_available_slots` (calendar_handler.py lines
38–47), applied to `now` in order: (1) if `now.hour >= 18`, move to 09:00 of
the next day; (2) if the hour is `< 9`, set 09:00 the same day; (3) if the
minute is not a multiple of 15, add `15 - minute % 15` minutes. -/
def initialCursor (now : Nat) : Nat :=
  let s1 := if hourOf now ≥ 18 then (dayOf now + 1) * 1440 + 540 else now
  let s2 := if hourOf s1 < 9 then dayOf s1 * 1440 + 540 else s1
  if minuteOf s2 % 15 ≠ 0 then s2 + (15 - minuteOf s2 % 15) else s2

/-- Weekend jump of the slot-search loop (line 85):
`(cursor + timedelta(days=7 - cursor.weekday())).replace(hour=9, minute=0)`. -/
def nextMondayNine (t : Nat) : Nat := (dayOf t + (7 - weekdayOf t)) * 1440 + 540

/-- End-of-business-day jump of the slot-search loop (line 90):
`(cursor + timedelta(days=1)).replace(hour=9, minute=0)`. -/
def nextDayNine (t : Nat) : Nat := (dayOf t + 1) * 1440 + 540

/-- Inner conflict test of the slot-search loop (lines 95–99): the candidate
`[start, finish)` is free iff no busy interval `b` has
`start < b.end and finish > b.start`. -/
def isFreeSlot (start finish : Nat) (busy : List (Nat × Nat)) : Bool :=
  busy.all fun b => !(decide (start < b.2) && decide (finish > b.1))

/-- Body of the `while potential_slot_start < time_max` walk of
`find_available_slots` (lines 81–104), with an explicit fuel argument so the
function is structurally recursive and evaluates inside the kernel.  Each
iteration strictly increases the cursor by at least one minute, so a fuel of
`time_max - cursor` always suffices (`slotSearchGo_fuel_irrelevant`). -/
def slotSearchGo (durationMinutes : Nat) (busy : List (Nat × Nat)) (timeMax : Nat) :
    Nat → Nat → List Nat
  | cursor, fuel + 1 =>
    if cursor < timeMax then
      if weekdayOf cursor ≥ 5 then
        slotSearchGo durationMinutes busy timeMax (nextMondayNine cursor) fuel
      else if hourOf cursor ≥ 18 then
        slotSearchGo durationMinutes busy timeMax (nextDayNine cursor) fuel
      else
        (if isFreeSlot cursor (cursor + durationMinutes) busy then [cursor] else []) ++
          slotSearchGo durationMinutes busy timeMax (cursor + 15) fuel
    else []
  | _, 0 => []

/-- The slot-search walk started at `cursor` with horizon `timeMax`. -/
def slotSearch (durationMinutes : Nat) (busy : List (Nat × Nat))
    (timeMax cursor : Nat) : List Nat :=
  slotSearchGo durationMinutes busy timeMax cursor (timeMax - cursor)

/-- Whole of `find_available_slots`: initial cursor from `now` (lines 38–47),
horizon `time_max = cursor + timedelta(days=days_to_check)` (line 49), then
the walk.  `busy` is the oracle for the fetched event list, already converted
to `[busyStart, busyEnd)` minute intervals. -/
def find_available_slots (now durationMinutes daysToCheck : Nat)
    (busy : List (Nat × Nat)) : List Nat :=
  slotSearch durationMinutes busy (initialCursor now + daysToCheck * 1440)
    (initialCursor now)

/-- Initial-cursor computation in the order the specification words it
(spec section 4.2, step 1): round `now` up to the next 15-minute boundary
first, then move to 09:00 next day if the rounded time falls at/after 18:00,
else clamp to 09:00 the same day if it falls before 09:00.  This is the
comparison definition for the refinement claim about the cursor; the code's
order is `initialCursor`. -/
def specInitialCursor (now : Nat) : Nat :=
  let r := if now % 15 ≠ 0 then now + (15 - now % 15) else now
  if hourOf r ≥ 18 then (dayOf r + 1) * 1440 + 540
  else if hourOf r < 9 then dayOf r * 1440 + 540
  else r

/-! ## Python string primitives

`str.lower`, `str.strip` and `str.title` are implemented character-wise so
that every definition evaluates inside the kernel (for ASCII data they agree
with Python). -/

/-- Python `str.lower()` (ASCII). -/
def pyLower (s : String) : String := String.mk (s.data.map Char.toLower)

/-- Python `str.strip()`: drop leading and trailing whitespace. -/
def pyStrip (s : String) : String :=
  String.mk (((s.data.dropWhile Char.isWhitespace).reverse.dropWhile
    Char.isWhitespace).reverse)

/-- Normalisation applied to sender addresses by
`insert_applicant_and_communication`: `strip().lower()`. -/
def normStr (s : String) : String := pyLower (pyStrip s)

/-- Python `str.title()` (ASCII): upper-case every letter that follows a
non-letter, lower-case the other letters. -/
def pyTitle (s : String) : String :=
  String.mk (s.data.foldl (fun acc c =>
    if c.isAlpha then
      (acc.1 ++ [if acc.2 then c.toLower else c.toUpper], true)
    else (acc.1 ++ [c], false)) (([] : List Char), false)).1

/-- Substring test (`keyword in domain_lower`). -/
def listContainsSub (needle : List Char) : List Char → Bool
  | [] => needle.isEmpty
  | c :: rest => needle.isPrefixOf (c :: rest) || listContainsSub needle rest

/-- Python `needle in hay` on strings. -/
def strContains (hay needle : String) : Bool := listContainsSub needle.data hay.data

/-! ## AI classifier (ai_classifier.py)

A Python dict flowing out of `json.loads` is modelled as an association list
with string values (the fields the pipeline reads are strings).  The oracle
for each LLM backend is the JSON object found in the model's reply, when the
HTTP call succeeded and `re.search` found a JSON object — `none` covers a
missing API token, a non-200 status, a request exception, an empty generated
text, absence of a JSON object and a JSON decode error alike, since every one
of those paths makes the backend helper return `None`. -/

/-- Association-list model of a Python dict with string values. -/
abbrev PyDict := List (String × String)

/-- Python `d.get(k)`: value of the first matching key, if any. -/
def dget (d : PyDict) (k : String) : Option String :=
  (d.find? (fun p => p.1 == k)).map (fun p => p.2)

/-- Python `d[k] = v`: replace the value if the key exists, else append it. -/
def dset (d : PyDict) (k v : String) : PyDict :=
  if d.any (fun p => p.1 == k) then
    d.map (fun p => if p.1 == k then (p.1, v) else p)
  else d ++ [(k, v)]

/-- Field list of `_parse_and_clean_response` (ai_classifier.py line 325). -/
def requiredFields : List String :=
  ["Name", "Email", "Phone", "Education", "JobHistory", "Domain"]

/-- Phone cleaning of `_parse_and_clean_response` (lines 318–322): keep
digits, drop a leading `91` of a 12-digit number, keep the last 10 digits. -/
def cleanPhone (p : String) : String :=
  let ds := p.data.filter Char.isDigit
  let ds := if ds.length = 12 && ['9', '1'].isPrefixOf ds then ds.drop 2 else ds
  String.mk (if ds.length ≥ 10 then ds.drop (ds.length - 10) else ds)

/-- Phone step of `_parse_and_clean_response`:
`if 'Phone' in data and data['Phone']: data['Phone'] = …`. -/
def phoneStep (data : PyDict) : PyDict :=
  match dget data "Phone" with
  | some p => if p ≠ "" then dset data "Phone" (cleanPhone p) else data
  | none => data

/-- Field-filling loop of `_parse_and_clean_response` (lines 324–328): every
required field missing from the dict is set to the empty string. -/
def fillRequired (data : PyDict) : PyDict :=
  requiredFields.foldl (fun d f => if (dget d f).isSome then d else dset d f "") data

/-- `_parse_and_clean_response` on the JSON object found in the reply text
(`none` when no JSON object was found or decoding failed, in which case the
function returns `None`). -/
def parse_and_clean_response (parsed : Option PyDict) : Option PyDict :=
  match parsed with
  | none => none
  | some data => some (fillRequired (phoneStep data))

/-- Role keyword map of `_normalize_domain` (lines 218–232), in source
order. -/
def roleMap : List (String × List String) :=
  [("DevOps Engineer", ["devops", "aws cloud engineer", "cloud engineer", "infrastructure"]),
   ("Full Stack Developer", ["full stack", "fullstack", "full-stack"]),
   ("AI/ML Engineer", ["ai/ml", "machine learning", "ml engineer", "data scientist", "ai engineer"]),
   ("QA Engineer", ["qa", "quality assurance", "testing", "test engineer", "sdet"]),
   ("Software Developer", ["software developer", "software engineer", "backend developer", "frontend developer"]),
   ("Digital Marketing", ["digital marketing", "ppc", "social media marketing", "marketing specialist"]),
   ("Content", ["content writing", "content creation", "copywriting", "content marketing"]),
   ("UI/UX", ["ui/ux", "ui", "ux", "designer", "user experience", "user interface"]),
   ("App developer", ["mobile developer", "android developer", "ios developer", "flutter developer"]),
   ("Project manager", ["project manager", "program manager", "scrum master", "product manager"]),
   ("SEO", ["seo", "search engine optimization", "seo specialist"]),
   ("HR", ["human resources", "hr", "talent acquisition", "recruiter"]),
   ("BDE", ["business development", "sales", "bde", "business analyst"])]

/-- `_normalize_domain` (lines 210–239): empty text maps to "Other", else the
first role whose keyword occurs in the lower-cased text, else `text.title()`. -/
def normalize_domain (domainText : String) : String :=
  if domainText = "" then "Other"
  else
    let lo := pyLower domainText
    match roleMap.find? (fun r => r.2.any (fun k => strContains lo k)) with
    | some r => r.1
    | none => pyTitle domainText

/-- Backend oracles of `extract_info`: per backend, the JSON object found in
the model reply when one arrived (see the section comment).  The Hugging Face
helper iterates over its model list, so its oracle is one entry per model. -/
structure Backends where
  groq : Option PyDict
  hf : List (Option PyDict)
  ollama : Option PyDict

/-- `_extract_with_groq_api` (lines 111–160): on a 200 response the parsed and
cleaned JSON is returned directly — with no check that the dict carries a
usable name. -/
def extract_with_groq_api (b : Backends) : Option PyDict :=
  match b.groq with
  | none => none
  | some raw => parse_and_clean_response (some raw)

/-- Inner loop of `_extract_with_huggingface_multiple_models` (lines 50–105):
each model's reply is parsed, and only a result with a truthy `Name` is
returned; otherwise the next model is tried. -/
def extract_with_hf_models : List (Option PyDict) → Option PyDict
  | [] => none
  | r :: rest =>
    match r with
    | none => extract_with_hf_models rest
    | some raw =>
      match parse_and_clean_response (some raw) with
      | some d => if (dget d "Name").getD "" ≠ "" then some d else extract_with_hf_models rest
      | none => extract_with_hf_models rest

/-- `_extract_with_ollama_fallback` (lines 162–208): parse the generated text
of a 200 response, no name check. -/
def extract_with_ollama_fallback (b : Backends) : Option PyDict :=
  match b.ollama with
  | none => none
  | some raw => parse_and_clean_response (some raw)

/-- Domain-normalisation step of `extract_info`:
`if 'Domain' in result: result['Domain'] = self._normalize_domain(...)`. -/
def domainStep (r : PyDict) : PyDict :=
  match dget r "Domain" with
  | some dv => dset r "Domain" (normalize_domain dv)
  | none => r

/-- Fallback dict returned by `extract_info` when every backend fails
(lines 283–290). -/
def fallbackDict : PyDict :=
  [("Name", "Unknown Applicant"), ("Email", ""), ("Phone", ""),
   ("Education", "Not specified"), ("JobHistory", "Not specified"),
   ("Domain", "Other")]

/-- `extract_info` (lines 241–301): try Groq, then the Hugging Face models,
then Ollama; normalise the domain of a truthy result; if everything fails,
return the fallback dict.  The outer `except` also returns the fallback dict,
so the function never raises and never returns `None`. -/
def extract_info (b : Backends) : PyDict :=
  match extract_with_groq_api b with
  | some r => domainStep r
  | none =>
    match extract_with_hf_models b.hf with
    | some r => domainStep r
    | none =>
      match extract_with_ollama_fallback b with
      | some r => domainStep r
      | none => fallbackDict

/-! ## Applicant store (database_handler.py) -/

/-- Row of the `applicants` table (the columns the core touches). -/
structure Applicant where
  aid : Nat
  name : Option String
  email : String
  phone : Option String
  domain : Option String
  education : Option String
  job_history : Option String
  cv_url : Option String
  gmail_thread_id : Option String
  status : String
deriving DecidableEq

/-- Row of the `communications` table. -/
structure CommRow where
  applicant_id : Nat
  gmail_message_id : String
  sender : String
  subject : String
  body : String
  direction : String
deriving DecidableEq

/-- In-memory model of the store: the tables the ingestion core reads and
writes, plus the serial-id counter of `applicants`. -/
structure DBState where
  applicants : List Applicant
  communications : List CommRow
  statusHistory : List (Nat × String)
  nextId : Nat
deriving DecidableEq

/-- Store with empty tables. -/
def emptyDB : DBState :=
  { applicants := [], communications := [], statusHistory := [], nextId := 1 }

/-- Modelled from the spec: `MessageSource.getContent(id) -> {sender, subject,
body, threadId}` (spec section 6) — `email_handler.py` is not part of the
sources, so the message-content record is taken from the spec's collaborator
contract, with the message id that `_process_single_email` also reads. -/
structure EmailData where
  id : String
  sender : String
  subject : String
  body : String
  thread_id : Option String
deriving DecidableEq

/-- Profile dict handed to `insert_applicant_and_communication`; `none` models
a missing key (`applicant_data.get(k)` then yields SQL NULL). -/
structure ApplicantData where
  Name : Option String
  Email : Option String
  Phone : Option String
  Domain : Option String
  Education : Option String
  JobHistory : Option String
  CV_URL : Option String
deriving DecidableEq

/-- Email normalisation of `insert_applicant_and_communication` (line 162):
`applicant_data.get("Email", "").strip().lower() if applicant_data.get("Email")
else None`. -/
def normEmail (e : Option String) : Option String :=
  match e with
  | none => none
  | some s => if s = "" then none else some (normStr s)

/-- `insert_applicant_and_communication` (lines 151–196).  Order of the
source: normalise the email and hard-skip a falsy one (lines 162–165); skip a
duplicate normalised email (167–170); insert the applicant row with status
"New" (172–178); append the initial "New" history row (180); if the message
meta carries an id, insert the initial communication row (182–186) — that
insert has no ON CONFLICT clause, so a duplicate `gmail_message_id` raises
and the whole transaction rolls back to `(none, db)` (193–196). -/
def insert_applicant_and_communication (db : DBState) (ad : ApplicantData)
    (ed : EmailData) : Option Nat × DBState :=
  match normEmail ad.Email with
  | none => (none, db)
  | some em =>
    if em = "" then (none, db)
    else if db.applicants.any (fun a => a.email == em) then (none, db)
    else if ed.id ≠ "" ∧ db.communications.any (fun c => c.gmail_message_id == ed.id) then
      (none, db)
    else
      let app : Applicant :=
        { aid := db.nextId, name := ad.Name, email := em, phone := ad.Phone,
          domain := some (ad.Domain.getD "Other"), education := ad.Education,
          job_history := ad.JobHistory, cv_url := ad.CV_URL,
          gmail_thread_id := ed.thread_id, status := "New" }
      let db1 : DBState :=
        { db with applicants := db.applicants ++ [app],
                  statusHistory := db.statusHistory ++ [(db.nextId, "New")],
                  nextId := db.nextId + 1 }
      let db2 : DBState :=
        if ed.id ≠ "" then
          { db1 with communications := db1.communications ++
              [{ applicant_id := app.aid, gmail_message_id := ed.id,
                 sender := ed.sender, subject := ed.subject, body := ed.body,
                 direction := "Incoming" }] }
        else db1
      (some app.aid, db2)

/-- `insert_communication` (lines 389–395): INSERT … ON CONFLICT
(gmail_message_id) DO NOTHING, so a row is appended only when no row with the
same external message id exists; the call reports success either way. -/
def insert_communication (db : DBState) (cd : CommRow) : Bool × DBState :=
  if db.communications.any (fun c => c.gmail_message_id == cd.gmail_message_id) then
    (true, db)
  else (true, { db with communications := db.communications ++ [cd] })

/-- `update_applicant_thread_id` (lines 135–149): UPDATE applicants SET
gmail_thread_id. -/
def update_applicant_thread_id (db : DBState) (aid : Nat) (tid : Option String) :
    DBState :=
  { db with applicants := db.applicants.map fun a =>
      if a.aid = aid then { a with gmail_thread_id := tid } else a }

/-- `get_active_threads` (lines 402–408): applicants whose status is neither
"Rejected" nor "Hired" and whose thread id is not NULL. -/
def get_active_threads (db : DBState) : List (Nat × String) :=
  db.applicants.filterMap fun a =>
    if a.status ≠ "Rejected" ∧ a.status ≠ "Hired" then
      a.gmail_thread_id.map (fun t => (a.aid, t))
    else none

/-! ## Processing engine (processing_engine.py) -/

/-- One inbound message of the mail source, together with the oracle values
of the collaborator calls made for it: `save_attachment` outcome,
`upload_to_drive` outcome and extracted resume text (spec section 6 treats
all three as opaque collaborator capabilities). -/
structure Message where
  id : String
  read : Bool
  sender : String
  subject : String
  body : String
  thread_id : Option String
  attachment : Option String
  driveUrl : Option String
  resumeText : String
deriving DecidableEq

/-- State visible to one engine run: mail source, store and the per-run
`processed_message_ids_this_run` set. -/
structure World where
  mailbox : List Message
  db : DBState
  runState : List String
deriving DecidableEq

/-- `get_email_content` on the mailbox oracle. -/
def get_email_content (mailbox : List Message) (msgId : String) : Option Message :=
  mailbox.find? (fun m => m.id == msgId)

/-- `mark_as_read` on the mailbox oracle. -/
def mark_as_read (mailbox : List Message) (msgId : String) : List Message :=
  mailbox.map fun m => if m.id == msgId then { m with read := true } else m

/-- `fetch_unread_emails` on the mailbox oracle. -/
def fetch_unread_emails (mailbox : List Message) : List Message :=
  mailbox.filter (fun m => !m.read)

/-- Message-meta dict handed to the store by `_process_single_email`. -/
def emailDataOf (m : Message) : EmailData :=
  { id := m.id, sender := m.sender, subject := m.subject, body := m.body,
    thread_id := m.thread_id }

/-- Classification outcome as `_process_single_email` consumes it: the six
string fields of the dict `extract_info` returns (its `Email` is afterwards
overwritten with the message sender). -/
structure AIData where
  Name : String
  Email : String
  Phone : String
  Education : String
  JobHistory : String
  Domain : String
deriving DecidableEq

/-- `_process_single_email` (lines 99–130).  No content → return with no side
effect; no attachment → mark read and skip; classification `None` or falsy
`Name` → return, deliberately leaving the message unread; otherwise build the
profile with `Email := sender`, `CV_URL := drive_url` and call the combined
store insert — and mark the message read whether the store returned an id or
reported a duplicate.  `classify` is the run's classification oracle, keyed by
message id. -/
def processSingleEmail (classify : String → Option AIData) (w : World)
    (msgId : String) : World :=
  match get_email_content w.mailbox msgId with
  | none => w
  | some m =>
    match m.attachment with
    | none => { w with mailbox := mark_as_read w.mailbox msgId }
    | some _ =>
      match classify msgId with
      | none => w
      | some ai =>
        if ai.Name = "" then w
        else
          let ad : ApplicantData :=
            { Name := some ai.Name, Email := some m.sender, Phone := some ai.Phone,
              Domain := some ai.Domain, Education := some ai.Education,
              JobHistory := some ai.JobHistory, CV_URL := m.driveUrl }
          let db2 := (insert_applicant_and_communication w.db ad (emailDataOf m)).2
          { w with db := db2, mailbox := mark_as_read w.mailbox msgId }

/-- Loop body of `_process_new_applications` (lines 43–49): skip a message
already in the run set, else process it, add its id to the run set and
increment the counter — unconditionally, whatever `_process_single_email`
did. -/
def processNAStep (classify : String → Option AIData) (acc : Nat × World)
    (m : Message) : Nat × World :=
  if m.id ∈ acc.2.runState then acc
  else
    let w := processSingleEmail classify acc.2 m.id
    (acc.1 + 1, { w with runState := m.id :: w.runState })

/-- `_process_new_applications` (lines 35–50): fetch the unread messages once,
then run the loop body over them; the returned count is the run summary's
new-application figure. -/
def processNewApplications (classify : String → Option AIData) (w : World) :
    Nat × World :=
  (fetch_unread_emails w.mailbox).foldl (processNAStep classify) (0, w)

/-- Outcome of one `fetch_new_messages_in_thread` call: either the list of
message ids in the thread, or a raised exception.  Modelled from the spec:
`email_handler.py` is not part of the sources; per spec section 6 the source
"must signal a distinct thread-not-found condition separately from generic
transport errors", and the engine's handler shows that signal to be an
`HttpError` carrying an HTTP status. -/
inductive FetchResult where
  | ok (msgs : List String)
  | raises (isHttpError : Bool) (status : Nat)
deriving DecidableEq

/-- Name-resolution fact of the reply loop's exception handler:
`processing_engine.py` line 60 reads `except HttpError`, but the module's
imports (lines 1–6) bind only `logger`, `EmailHandler`, `DriveHandler`,
`FileProcessor`, `AIClassifier` and `DatabaseHandler`, and no builtin is named
`HttpError`; evaluating the clause therefore raises `NameError` whenever any
exception reaches the handler, before either branch body can run. -/
def engineResolvesHttpError : Bool := false

/-- Inner message loop of `_process_replies` (lines 77–96): skip ids already
recorded or already handled this run; skip (but remember) messages without
content or sent by the HR user itself; record the rest as Incoming
communication rows.  `content` is the `get_email_content` oracle for thread
messages. -/
def processThreadMsgs (content : String → Option EmailData) (aid : Nat)
    (known : List String) :
    List String → Nat → DBState → List String → Nat × DBState × List String
  | [], count, db, rs => (count, db, rs)
  | mid :: rest, count, db, rs =>
    if mid ∈ known ∨ mid ∈ rs then processThreadMsgs content aid known rest count db rs
    else
      match content mid with
      | none => processThreadMsgs content aid known rest count db (mid :: rs)
      | some ed =>
        if ed.sender = "me" then
          processThreadMsgs content aid known rest count db (mid :: rs)
        else
          let cd : CommRow :=
            { applicant_id := aid, gmail_message_id := ed.id, sender := ed.sender,
              subject := ed.subject, body := ed.body, direction := "Incoming" }
          processThreadMsgs content aid known rest (count + 1)
            (insert_communication db cd).2 (mid :: rs)

/-- Per-thread loop of `_process_replies` (lines 57–96).  A successful fetch
feeds the inner message loop (`known_ids` from `get_conversations`); a raised
exception reaches the `except HttpError` clause, whose class lookup fails
(`engineResolvesHttpError`), so the run aborts with `NameError` — the healing
and log-and-skip branches written in the source (lines 61–69) are preserved
below under the hypothetical that the name resolved. -/
def processRepliesGo (fetch : String → FetchResult)
    (content : String → Option EmailData) :
    List (Nat × String) → Nat → DBState → List String →
      Except String (Nat × DBState × List String)
  | [], count, db, rs => .ok (count, db, rs)
  | (aid, tid) :: rest, count, db, rs =>
    match fetch tid with
    | .raises isHttp status =>
      if engineResolvesHttpError then
        if isHttp then
          if status = 404 then
            processRepliesGo fetch content rest count
              (update_applicant_thread_id db aid none) rs
          else processRepliesGo fetch content rest count db rs
        else processRepliesGo fetch content rest count db rs
      else .error "NameError: name HttpError is not defined"
    | .ok msgs =>
      if msgs.isEmpty then processRepliesGo fetch content rest count db rs
      else
        let known := (db.communications.filter
          (fun c => c.applicant_id == aid)).map (fun c => c.gmail_message_id)
        let r := processThreadMsgs content aid known msgs count db rs
        processRepliesGo fetch content rest r.1 r.2.1 r.2.2

/-- `_process_replies` (lines 52–97) over the store's active threads. -/
def processReplies (fetch : String → FetchResult)
    (content : String → Option EmailData) (w : World) :
    Except String (Nat × DBState × List String) :=
  processRepliesGo fetch content (get_active_threads w.db) 0 w.db w.runState

/-! ## Lemmas about the slot-search walk -/

/-- The weekend jump moves the cursor strictly forward. -/
theorem nextMondayNine_gt (t : Nat) : t < nextMondayNine t := by
  unfold nextMondayNine weekdayOf dayOf; omega

/-- The end-of-day jump moves the cursor strictly forward. -/
theorem nextDayNine_gt (t : Nat) : t < nextDayNine t := by
  unfold nextDayNine dayOf; omega

/-- With the horizon reached, the walk is empty whatever the fuel. -/
theorem slotSearchGo_of_le (d : Nat) (busy : List (Nat × Nat)) (tm c : Nat)
    (h : ¬ c < tm) : ∀ fuel, slotSearchGo d busy tm c fuel = [] := by
  intro fuel
  cases fuel with
  | zero => rfl
  | succ n => unfold slotSearchGo; rw [if_neg h]

/-- One unfolding of the walk at positive fuel. -/
theorem slotSearchGo_succ (d : Nat) (busy : List (Nat × Nat)) (tm c fuel : Nat) :
    slotSearchGo d busy tm c (fuel + 1) =
      if c < tm then
        if weekdayOf c ≥ 5 then slotSearchGo d busy tm (nextMondayNine c) fuel
        else if hourOf c ≥ 18 then slotSearchGo d busy tm (nextDayNine c) fuel
        else (if isFreeSlot c (c + d) busy then [c] else []) ++
          slotSearchGo d busy tm (c + 15) fuel
      else [] := rfl

/-- Any fuel of at least `tm - c` computes the same walk, so `slotSearch`'s
fuel choice is canonical. -/
theorem slotSearchGo_fuel_irrelevant (d : Nat) (busy : List (Nat × Nat)) (tm : Nat) :
    ∀ f1 f2 c, tm - c ≤ f1 → tm - c ≤ f2 →
      slotSearchGo d busy tm c f1 = slotSearchGo d busy tm c f2 := by
  intro f1
  induction f1 with
  | zero =>
    intro f2 c h1 h2
    have hc : ¬ c < tm := by omega
    rw [slotSearchGo_of_le d busy tm c hc, slotSearchGo_of_le d busy tm c hc]
  | succ n ih =>
    intro f2 c h1 h2
    by_cases hc : c < tm
    · cases f2 with
      | zero => omega
      | succ g =>
        unfold slotSearchGo
        rw [if_pos hc, if_pos hc]
        by_cases hw : weekdayOf c ≥ 5
        · rw [if_pos hw, if_pos hw]
          exact ih g (nextMondayNine c) (by have := nextMondayNine_gt c; omega)
            (by have := nextMondayNine_gt c; omega)
        · rw [if_neg hw, if_neg hw]
          by_cases hh : hourOf c ≥ 18
          · rw [if_pos hh, if_pos hh]
            exact ih g (nextDayNine c) (by have := nextDayNine_gt c; omega)
              (by have := nextDayNine_gt c; omega)
          · rw [if_neg hh, if_neg hh]
            rw [ih g (c + 15) (by omega) (by omega)]
    · rw [slotSearchGo_of_le d busy tm c hc, slotSearchGo_of_le d busy tm c hc]

/-- Every start the walk emits is free of every busy interval, in the strict
overlap sense of the source's inner loop. -/
theorem slotSearchGo_free (d : Nat) (busy : List (Nat × Nat)) (tm : Nat) :
    ∀ fuel c s, s ∈ slotSearchGo d busy tm c fuel →
      ∀ b ∈ busy, ¬(s < b.2 ∧ s + d > b.1) := by
  intro fuel
  induction fuel with
  | zero => intro c s hs; simp [slotSearchGo] at hs
  | succ n ih =>
    intro c s hs b hb
    unfold slotSearchGo at hs
    split at hs
    · by_cases hw : weekdayOf c ≥ 5
      · rw [if_pos hw] at hs
        exact ih _ _ hs b hb
      · rw [if_neg hw] at hs
        by_cases hh : hourOf c ≥ 18
        · rw [if_pos hh] at hs
          exact ih _ _ hs b hb
        · rw [if_neg hh] at hs
          rcases List.mem_append.mp hs with h | h
          · by_cases hf : isFreeSlot c (c + d) busy = true
            · rw [if_pos hf] at h
              rcases List.mem_singleton.mp h with rfl
              have h2 := List.all_eq_true.mp hf b hb
              simp only [Bool.not_eq_true', Bool.and_eq_false_iff,
                decide_eq_false_iff_not] at h2
              omega
            · rw [if_neg hf] at h
              simp at h
          · exact ih _ _ h b hb
    · simp at hs

/-- Every start the walk emits lies on a weekday. -/
theorem slotSearchGo_weekday (d : Nat) (busy : List (Nat × Nat)) (tm : Nat) :
    ∀ fuel c s, s ∈ slotSearchGo d busy tm c fuel → weekdayOf s < 5 := by
  intro fuel
  induction fuel with
  | zero => intro c s hs; simp [slotSearchGo] at hs
  | succ n ih =>
    intro c s hs
    unfold slotSearchGo at hs
    split at hs
    · by_cases hw : weekdayOf c ≥ 5
      · rw [if_pos hw] at hs
        exact ih _ _ hs
      · rw [if_neg hw] at hs
        by_cases hh : hourOf c ≥ 18
        · rw [if_pos hh] at hs
          exact ih _ _ hs
        · rw [if_neg hh] at hs
          rcases List.mem_append.mp hs with h | h
          · have hsc : s = c := by
              by_cases hf : isFreeSlot c (c + d) busy = true
              · rw [if_pos hf] at h; exact List.mem_singleton.mp h
              · rw [if_neg hf] at h; simp at h
            subst hsc
            omega
          · exact ih _ _ h
    · simp at hs

/-- When the walk starts at or after 09:00 of its day, every emitted start
lies in `[09:00, 18:00)` of its day: the loop's only hour guard is the
`hour >= 18` jump, and every jump target and 15-minute step from such a
cursor stays at or after 09:00. -/
theorem slotSearchGo_hours (d : Nat) (busy : List (Nat × Nat)) (tm : Nat) :
    ∀ fuel c, 540 ≤ c % 1440 →
      ∀ s ∈ slotSearchGo d busy tm c fuel, 540 ≤ s % 1440 ∧ s % 1440 < 1080 := by
  intro fuel
  induction fuel with
  | zero => intro c hc s hs; simp [slotSearchGo] at hs
  | succ n ih =>
    intro c hc s hs
    unfold slotSearchGo at hs
    split at hs
    · by_cases hw : weekdayOf c ≥ 5
      · rw [if_pos hw] at hs
        refine ih (nextMondayNine c) ?_ s hs
        unfold nextMondayNine weekdayOf dayOf; omega
      · rw [if_neg hw] at hs
        by_cases hh : hourOf c ≥ 18
        · rw [if_pos hh] at hs
          refine ih (nextDayNine c) ?_ s hs
          unfold nextDayNine dayOf; omega
        · rw [if_neg hh] at hs
          unfold hourOf at hh
          rcases List.mem_append.mp hs with h | h
          · have hsc : s = c := by
              by_cases hf : isFreeSlot c (c + d) busy = true
              · rw [if_pos hf] at h; exact List.mem_singleton.mp h
              · rw [if_neg hf] at h; simp at h
            subst hsc
            omega
          · refine ih (c + 15) ?_ s h
            omega
    · simp at hs

/-- The initial cursor always lies at or after 09:00 of its day. -/
theorem initialCursor_lb (now : Nat) : 540 ≤ initialCursor now % 1440 := by
  unfold initialCursor hourOf dayOf minuteOf
  dsimp only
  split_ifs <;> omega

/-! ## Claim C2 — conflict exclusion around one busy interval -/

/-- C2 (counterexample): with one busy interval [10:00, 10:30) and duration
30, the candidate at 09:45 runs until 10:15, so the strict-overlap rule the
claim itself states (09:45 < 10:30 and 10:15 > 10:00) excludes it — contrary
to the claim, 09:45 is absent from the result.  Concretely: Monday, now =
09:00, so the walk starts at 540 and 585 is the 09:45 candidate. -/
theorem C2_counterexample : 585 ∉ find_available_slots 540 30 1 [(600, 630)] := by
  decide

/-- C2 (amended): every returned start is free of every busy interval under
the strict-overlap rule, and in the one-busy-interval scenario ([10:00,10:30),
duration 30, walk starting Monday 09:00) the starts 09:30 and 10:30 are
present while 10:00 and 09:45 are absent — 09:45 conflicts because its
candidate interval reaches 10:15. -/
theorem C2_conflict_exclusion :
    (∀ (d : Nat) (busy : List (Nat × Nat)) (tm c s : Nat),
        s ∈ slotSearch d busy tm c → ∀ b ∈ busy, ¬(s < b.2 ∧ s + d > b.1)) ∧
    570 ∈ find_available_slots 540 30 1 [(600, 630)] ∧
    630 ∈ find_available_slots 540 30 1 [(600, 630)] ∧
    600 ∉ find_available_slots 540 30 1 [(600, 630)] ∧
    585 ∉ find_available_slots 540 30 1 [(600, 630)] := by
  refine ⟨fun d busy tm c s hs => slotSearchGo_free d busy tm _ c s hs, ?_, ?_, ?_, ?_⟩
  · decide
  · decide
  · decide
  · decide

/-- C2 witness: the freeness statement applied to the concrete emitted start
09:30 and the busy interval [10:00, 10:30). -/
theorem C2_witness : ¬(570 < 630 ∧ 570 + 30 > 600) :=
  C2_conflict_exclusion.1 30 [(600, 630)] 1980 540 570 (by decide) (600, 630)
    (by decide)

/-! ## Claim C4 — business-hour bounds on returned starts -/

/-- C4 (counterexample): the walk only guards the start hour, never the
candidate's end, so with an empty calendar and duration 30 the Monday start
17:45 (minute 1065) is returned even though 17:45 + 30 min = 18:15 runs past
18:00. -/
theorem C4_counterexample :
    1065 ∈ find_available_slots 540 30 1 [] ∧ 1065 % 1440 + 30 > 1080 := by
  decide

/-- C4 (amended): every start returned by `find_available_slots` lies at or
after 09:00 and strictly before 18:00 of its day; the end `start + duration`
is not bounded by the code and may run past 18:00. -/
theorem C4_business_hours (now d days s : Nat) (busy : List (Nat × Nat))
    (hs : s ∈ find_available_slots now d days busy) :
    540 ≤ s % 1440 ∧ s % 1440 < 1080 :=
  slotSearchGo_hours d busy (initialCursor now + days * 1440) _ (initialCursor now)
    (initialCursor_lb now) s hs

/-- C4 witness: the bounds instantiated at the concrete returned start 09:00
of an empty Monday calendar. -/
theorem C4_witness : 540 ≤ 540 % 1440 ∧ 540 % 1440 < 1080 :=
  C4_business_hours 540 30 1 540 [] (by decide)

/-! ## Claim C8 — initial cursor and search horizon -/

/-- C8 (counterexample): at now = Monday 17:50 (minute 1070) the code leaves
the hour guard untouched (17 < 18), then rounds up to 18:00, giving cursor
1080 — while the spec's order (round first, then push a ≥ 18:00 cursor to the
next day) gives 09:00 Tuesday (minute 1980).  The two computations differ, so
the claimed cursor formula is wrong for every such `now`. -/
theorem C8_counterexample :
    initialCursor 1070 = 1080 ∧ specInitialCursor 1070 = 1980 ∧
      initialCursor 1070 ≠ specInitialCursor 1070 := by
  decide

/-- C8 (amended): the code applies the adjustments in the order hour ≥ 18 →
next-day 09:00, hour < 9 → same-day 09:00, then round up to the 15-minute
boundary; this agrees with the spec's round-first order except when `now`
lies strictly between 17:45 and 18:00, where the code's cursor is exactly
18:00 of the same day while the spec's is 09:00 of the next day.  The search
horizon is the code's cursor plus `daysToSearch` days (definition
`find_available_slots`). -/
theorem C8_cursor_characterisation (now : Nat) :
    (now % 1440 ≤ 1065 ∨ 1080 ≤ now % 1440 →
      initialCursor now = specInitialCursor now) ∧
    (1065 < now % 1440 → now % 1440 < 1080 →
      initialCursor now = now / 1440 * 1440 + 1080 ∧
      specInitialCursor now = (now / 1440 + 1) * 1440 + 540) := by
  unfold initialCursor specInitialCursor hourOf dayOf minuteOf
  dsimp only
  constructor
  · intro h
    split_ifs <;> omega
  · intro h1 h2
    split_ifs <;> omega

/-- C8 witness: the agreement case at now = 08:20 Monday (minute 500) and the
divergence case at now = 17:50 Monday (minute 1070). -/
theorem C8_witness :
    initialCursor 500 = specInitialCursor 500 ∧
      initialCursor 1070 = 1070 / 1440 * 1440 + 1080 :=
  ⟨(C8_cursor_characterisation 500).1 (by decide),
   ((C8_cursor_characterisation 1070).2 (by decide) (by decide)).1⟩

/-! ## Claim C9 — weekend exclusion -/

/-- C9: no start returned by `find_available_slots` falls on a Saturday or a
Sunday (for every duration, busy set and `now`), and whenever the cursor
stands on a weekend day before the horizon, the walk continues exactly at
09:00 of the next Monday without emitting anything in between. -/
theorem C9_weekend_exclusion :
    (∀ (now d days s : Nat) (busy : List (Nat × Nat)),
        s ∈ find_available_slots now d days busy → weekdayOf s < 5) ∧
    (∀ (d : Nat) (busy : List (Nat × Nat)) (tm c : Nat),
        c < tm → weekdayOf c ≥ 5 →
        slotSearch d busy tm c = slotSearch d busy tm (nextMondayNine c) ∧
        weekdayOf (nextMondayNine c) = 0 ∧ nextMondayNine c % 1440 = 540) := by
  constructor
  · intro now d days s busy hs
    exact slotSearchGo_weekday d busy _ _ _ s hs
  · intro d busy tm c hlt hwk
    refine ⟨?_, by unfold nextMondayNine weekdayOf dayOf; omega,
      by unfold nextMondayNine weekdayOf dayOf; omega⟩
    unfold slotSearch
    obtain ⟨k, hk⟩ : ∃ k, tm - c = k + 1 := ⟨tm - c - 1, by omega⟩
    rw [hk, slotSearchGo_succ, if_pos hlt, if_pos hwk]
    exact slotSearchGo_fuel_irrelevant d busy tm k (tm - nextMondayNine c)
      (nextMondayNine c) (by have := nextMondayNine_gt c; omega) (by omega)

/-- C9 witness: the weekday bound at the concrete returned start Monday 09:00,
and the weekend jump taken from Saturday 01:40 (minute 7300). -/
theorem C9_witness :
    weekdayOf 540 < 5 ∧ weekdayOf (nextMondayNine 7300) = 0 :=
  ⟨C9_weekend_exclusion.1 540 30 1 540 [] (by decide),
   (C9_weekend_exclusion.2 30 [] 10000 7300 (by decide) (by decide)).2.1⟩

/-! ## Lemmas about the dict model and `extract_info` -/

/-- A boolean that is not true is false. -/
theorem bool_eq_false_of_not {b : Bool} (h : ¬ b = true) : b = false := by
  cases b
  · rfl
  · exact absurd rfl h

/-- Distinct strings compare unequal under `==`. -/
theorem strBeqFalseOfNe {a b : String} (h : a ≠ b) : (a == b) = false :=
  bool_eq_false_of_not (fun hab => h (eq_of_beq hab))

/-- Setting key `k` by in-place map makes `k` readable as `v`. -/
theorem dget_of_any (k v : String) :
    ∀ d : PyDict, d.any (fun p => p.1 == k) = true →
      dget (d.map (fun p => if p.1 == k then (p.1, v) else p)) k = some v := by
  intro d
  induction d with
  | nil => intro h; simp at h
  | cons p rest ih =>
    intro h
    by_cases hp : (p.1 == k) = true
    · rw [List.map_cons, if_pos hp]
      unfold dget
      simp only [List.find?_cons, hp]
      rfl
    · have hp' : (p.1 == k) = false := bool_eq_false_of_not hp
      rw [List.map_cons, if_neg hp]
      unfold dget
      simp only [List.find?_cons, hp']
      have h2 : rest.any (fun p => p.1 == k) = true := by
        simp only [List.any_cons, hp', Bool.false_or] at h
        exact h
      exact ih h2

/-- Setting key `k` by in-place map leaves every other key unchanged. -/
theorem dget_map_set_ne (k v j : String) (hjk : j ≠ k) :
    ∀ d : PyDict,
      dget (d.map (fun p => if p.1 == k then (p.1, v) else p)) j = dget d j := by
  intro d
  induction d with
  | nil => rfl
  | cons p rest ih =>
    by_cases hj : (p.1 == j) = true
    · by_cases hp : (p.1 == k) = true
      · exact absurd ((eq_of_beq hj).symm.trans (eq_of_beq hp)) hjk
      · rw [List.map_cons, if_neg hp]
        unfold dget
        simp only [List.find?_cons, hj]
    · have hj' : (p.1 == j) = false := bool_eq_false_of_not hj
      by_cases hp : (p.1 == k) = true
      · rw [List.map_cons, if_pos hp]
        unfold dget
        simp only [List.find?_cons, hj']
        exact ih
      · rw [List.map_cons, if_neg hp]
        unfold dget
        simp only [List.find?_cons, hj']
        exact ih

/-- Appending `(k, v)` to a dict without key `k` makes `k` readable as `v`. -/
theorem dget_append_self (k v : String) :
    ∀ d : PyDict, d.any (fun p => p.1 == k) = false →
      dget (d ++ [(k, v)]) k = some v := by
  intro d
  induction d with
  | nil =>
    intro h
    unfold dget
    simp [List.find?_cons]
  | cons p rest ih =>
    intro h
    simp only [List.any_cons, Bool.or_eq_false_iff] at h
    rw [List.cons_append]
    unfold dget
    simp only [List.find?_cons, h.1]
    exact ih h.2

/-- Appending `(k, v)` leaves every other key unchanged. -/
theorem dget_append_ne (k v j : String) (hjk : j ≠ k) :
    ∀ d : PyDict, dget (d ++ [(k, v)]) j = dget d j := by
  intro d
  induction d with
  | nil =>
    unfold dget
    simp only [List.nil_append, List.find?_cons, strBeqFalseOfNe (Ne.symm hjk),
      List.find?_nil]
  | cons p rest ih =>
    rw [List.cons_append]
    by_cases hj : (p.1 == j) = true
    · unfold dget
      simp only [List.find?_cons, hj]
    · have hj' : (p.1 == j) = false := bool_eq_false_of_not hj
      unfold dget
      simp only [List.find?_cons, hj']
      exact ih

/-- Python `d[k] = v` makes `k` readable as `v`. -/
theorem dget_dset_self (d : PyDict) (k v : String) : dget (dset d k v) k = some v := by
  unfold dset
  by_cases h : d.any (fun p => p.1 == k) = true
  · rw [if_pos h]
    exact dget_of_any k v d h
  · rw [if_neg h]
    exact dget_append_self k v d (bool_eq_false_of_not h)

/-- Python `d[k] = v` leaves every other key unchanged. -/
theorem dget_dset_ne (d : PyDict) (k v j : String) (hjk : j ≠ k) :
    dget (dset d k v) j = dget d j := by
  unfold dset
  by_cases h : d.any (fun p => p.1 == k) = true
  · rw [if_pos h]
    exact dget_map_set_ne k v j hjk d
  · rw [if_neg h]
    exact dget_append_ne k v j hjk d

/-- An assignment never removes a key. -/
theorem dget_dset_isSome (d : PyDict) (k v j : String)
    (h : (dget d j).isSome = true) : (dget (dset d k v) j).isSome = true := by
  by_cases hjk : j = k
  · subst hjk
    rw [dget_dset_self]
    rfl
  · rw [dget_dset_ne d k v j hjk]
    exact h

/-- The field-filling fold never removes a key. -/
theorem foldl_fill_preserves (j : String) :
    ∀ (fs : List String) (d : PyDict), (dget d j).isSome = true →
      (dget (fs.foldl (fun d f => if (dget d f).isSome then d else dset d f "") d)
        j).isSome = true := by
  intro fs
  induction fs with
  | nil => intro d h; exact h
  | cons f rest ih =>
    intro d h
    simp only [List.foldl_cons]
    apply ih
    by_cases hf : (dget d f).isSome = true
    · rw [if_pos hf]; exact h
    · rw [if_neg hf]
      exact dget_dset_isSome d f "" j h

/-- After the field-filling fold, every folded-over field is present. -/
theorem foldl_fill_mem :
    ∀ (fs : List String) (d : PyDict) (f : String), f ∈ fs →
      (dget (fs.foldl (fun d g => if (dget d g).isSome then d else dset d g "") d)
        f).isSome = true := by
  intro fs
  induction fs with
  | nil => intro d f h; simp at h
  | cons g rest ih =>
    intro d f hf
    simp only [List.foldl_cons]
    rcases List.mem_cons.mp hf with rfl | hmem
    · apply foldl_fill_preserves
      by_cases hg : (dget d f).isSome = true
      · rw [if_pos hg]; exact hg
      · rw [if_neg hg, dget_dset_self]
        rfl
    · exact ih _ f hmem

/-- `_parse_and_clean_response` output carries every required field. -/
theorem fillRequired_isSome (d : PyDict) (f : String) (hf : f ∈ requiredFields) :
    (dget (fillRequired d) f).isSome = true :=
  foldl_fill_mem requiredFields d f hf

/-- The domain-normalisation step never removes a key. -/
theorem domainStep_isSome (r : PyDict) (f : String)
    (h : (dget r f).isSome = true) : (dget (domainStep r) f).isSome = true := by
  unfold domainStep
  cases hd : dget r "Domain" with
  | none => exact h
  | some dv => exact dget_dset_isSome r "Domain" (normalize_domain dv) f h

/-- A truthy Groq extraction is a parsed-and-cleaned dict. -/
theorem groq_some (b : Backends) (r : PyDict)
    (h : extract_with_groq_api b = some r) :
    ∃ raw, r = fillRequired (phoneStep raw) := by
  unfold extract_with_groq_api at h
  cases hb : b.groq with
  | none => rw [hb] at h; cases h
  | some raw =>
    rw [hb] at h
    unfold parse_and_clean_response at h
    exact ⟨raw, by injection h with h2; exact h2.symm⟩

/-- A truthy Ollama extraction is a parsed-and-cleaned dict. -/
theorem ollama_some (b : Backends) (r : PyDict)
    (h : extract_with_ollama_fallback b = some r) :
    ∃ raw, r = fillRequired (phoneStep raw) := by
  unfold extract_with_ollama_fallback at h
  cases hb : b.ollama with
  | none => rw [hb] at h; cases h
  | some raw =>
    rw [hb] at h
    unfold parse_and_clean_response at h
    exact ⟨raw, by injection h with h2; exact h2.symm⟩

/-- A truthy Hugging Face extraction is a parsed-and-cleaned dict. -/
theorem hf_some :
    ∀ (l : List (Option PyDict)) (r : PyDict), extract_with_hf_models l = some r →
      ∃ raw, r = fillRequired (phoneStep raw) := by
  intro l
  induction l with
  | nil => intro r h; cases h
  | cons x rest ih =>
    intro r h
    cases x with
    | none =>
      simp only [extract_with_hf_models] at h
      exact ih r h
    | some raw =>
      simp only [extract_with_hf_models, parse_and_clean_response] at h
      by_cases hname : (dget (fillRequired (phoneStep raw)) "Name").getD "" ≠ ""
      · rw [if_pos hname] at h
        exact ⟨raw, by injection h with h2; exact h2.symm⟩
      · rw [if_neg hname] at h
        exact ih r h

/-! ## Claim C10 — totality and shape of `extract_info` -/

/-- C10 (counterexample): when the Groq backend answers with a JSON object
that lacks a `Name` key (here just an email), `_parse_and_clean_response`
fills the missing field with the empty string, and the Groq branch of
`extract_info` — unlike the Hugging Face branch — returns the result without
any name check.  `extract_info` thus returns a dict whose `Name` is empty,
contradicting the claim that the result always carries a non-empty name. -/
theorem C10_counterexample :
    dget (extract_info { groq := some [("Email", "a@b.c")], hf := [], ollama := none })
      "Name" = some "" := by
  decide

/-- C10 (amended): `extract_info` is total over the backend oracles and its
result always carries all six fields Name, Email, Phone, Education,
JobHistory, Domain; when every backend fails it is exactly the fallback dict
(Name "Unknown Applicant", empty Email).  But the Name of a successful
Groq or Ollama extraction may be the empty string, which the caller treats
as a classification failure. -/
theorem C10_total_fields (b : Backends) :
    (∀ f ∈ requiredFields, (dget (extract_info b) f).isSome = true) ∧
    (b.groq = none → extract_with_hf_models b.hf = none → b.ollama = none →
      extract_info b = fallbackDict) := by
  constructor
  · intro f hfmem
    unfold extract_info
    cases hg : extract_with_groq_api b with
    | some r =>
      obtain ⟨raw, rfl⟩ := groq_some b r hg
      exact domainStep_isSome _ f (fillRequired_isSome _ f hfmem)
    | none =>
      cases hh : extract_with_hf_models b.hf with
      | some r =>
        obtain ⟨raw, rfl⟩ := hf_some b.hf r hh
        exact domainStep_isSome _ f (fillRequired_isSome _ f hfmem)
      | none =>
        cases ho : extract_with_ollama_fallback b with
        | some r =>
          obtain ⟨raw, rfl⟩ := ollama_some b r ho
          exact domainStep_isSome _ f (fillRequired_isSome _ f hfmem)
        | none =>
          fin_cases hfmem <;> decide
  · intro hg hh ho
    have h1 : extract_with_groq_api b = none := by
      unfold extract_with_groq_api
      rw [hg]
    have h3 : extract_with_ollama_fallback b = none := by
      unfold extract_with_ollama_fallback
      rw [ho]
    unfold extract_info
    rw [h1, hh, h3]

/-- C10 witness: with every backend failing, the result carries a Name field
and equals the fallback dict. -/
theorem C10_witness :
    (dget (extract_info { groq := none, hf := [], ollama := none }) "Name").isSome
        = true ∧
      extract_info { groq := none, hf := [], ollama := none } = fallbackDict :=
  ⟨(C10_total_fields { groq := none, hf := [], ollama := none }).1 "Name" (by decide),
   (C10_total_fields { groq := none, hf := [], ollama := none }).2 rfl rfl rfl⟩

/-! ## Lemmas about the store -/

/-- Reading `insert_communication` when the external id is already present:
ON CONFLICT DO NOTHING leaves the table unchanged. -/
theorem insert_comm_dup (db : DBState) (cd : CommRow)
    (h : db.communications.any
      (fun c => c.gmail_message_id == cd.gmail_message_id) = true) :
    (insert_communication db cd).2 = db := by
  unfold insert_communication
  rw [if_pos h]

/-- Reading `insert_communication` when the external id is new: the row is
appended. -/
theorem insert_comm_new (db : DBState) (cd : CommRow)
    (h : ¬ db.communications.any
      (fun c => c.gmail_message_id == cd.gmail_message_id) = true) :
    (insert_communication db cd).2 =
      { db with communications := db.communications ++ [cd] } := by
  unfold insert_communication
  rw [if_neg h]

/-- One `insert_applicant_and_communication` call never pushes the number of
applicant rows with a given email above one: every branch either leaves the
table unchanged or appends one row whose email did not occur before. -/
theorem insertAC_countP_le (db : DBState) (ad : ApplicantData) (ed : EmailData)
    (em : String)
    (h : db.applicants.countP (fun a => a.email == em) ≤ 1) :
    ((insert_applicant_and_communication db ad ed).2).applicants.countP
      (fun a => a.email == em) ≤ 1 := by
  unfold insert_applicant_and_communication
  cases hn : normEmail ad.Email with
  | none => exact h
  | some e =>
    dsimp only
    by_cases he : e = ""
    · rw [if_pos he]
      exact h
    · rw [if_neg he]
      by_cases hdup : db.applicants.any (fun a => a.email == e) = true
      · rw [if_pos hdup]
        exact h
      · rw [if_neg hdup]
        by_cases hcg : ed.id ≠ "" ∧ db.communications.any
            (fun c => c.gmail_message_id == ed.id) = true
        · rw [if_pos hcg]
          exact h
        · rw [if_neg hcg]
          have hsuf : ∀ db2 : DBState, db2.applicants = db.applicants ++
              [{ aid := db.nextId, name := ad.Name, email := e, phone := ad.Phone,
                 domain := some (ad.Domain.getD "Other"), education := ad.Education,
                 job_history := ad.JobHistory, cv_url := ad.CV_URL,
                 gmail_thread_id := ed.thread_id, status := "New" }] →
              db2.applicants.countP (fun a => a.email == em) ≤ 1 := by
            intro db2 hdb2
            rw [hdb2, List.countP_append]
            by_cases hem : e = em
            · subst hem
              have h0 : db.applicants.countP (fun a => a.email == e) = 0 :=
                List.countP_eq_zero.mpr
                  (fun a ha hpa => hdup (List.any_eq_true.mpr ⟨a, ha, hpa⟩))
              rw [h0, List.countP_cons, List.countP_nil]
              split_ifs <;> omega
            · rw [List.countP_cons, List.countP_nil,
                if_neg (fun hpa => hem (eq_of_beq hpa))]
              omega
          by_cases hid : ed.id ≠ ""
          · rw [if_pos hid]
            exact hsuf _ rfl
          · rw [if_neg hid]
            exact hsuf _ rfl

/-- Inserting a profile with a fresh, non-empty normalised email appends
exactly one applicant row with that email. -/
theorem insertAC_new_email (db : DBState) (ad : ApplicantData) (ed : EmailData)
    (s : String) (hs : ad.Email = some s) (hsne : s ≠ "") (hnne : normStr s ≠ "")
    (hnodup : ∀ a ∈ db.applicants, a.email ≠ normStr s)
    (hcomm : ∀ c ∈ db.communications, c.gmail_message_id ≠ ed.id) :
    ((insert_applicant_and_communication db ad ed).2).applicants.countP
      (fun a => a.email == normStr s) = 1 := by
  have hn : normEmail ad.Email = some (normStr s) := by
    rw [hs]
    simp [normEmail, hsne]
  unfold insert_applicant_and_communication
  rw [hn]
  dsimp only
  rw [if_neg hnne]
  have hany : ¬ db.applicants.any (fun a => a.email == normStr s) = true := by
    intro hcon
    rcases List.any_eq_true.mp hcon with ⟨a, ha, hpa⟩
    exact hnodup a ha (eq_of_beq hpa)
  rw [if_neg hany]
  have hcg : ¬ (ed.id ≠ "" ∧ db.communications.any
      (fun c => c.gmail_message_id == ed.id) = true) := by
    rintro ⟨h1, h2⟩
    rcases List.any_eq_true.mp h2 with ⟨c, hc, hpc⟩
    exact hcomm c hc (eq_of_beq hpc)
  rw [if_neg hcg]
  have hcount0 : db.applicants.countP (fun a => a.email == normStr s) = 0 :=
    List.countP_eq_zero.mpr (fun a ha hpa => hnodup a ha (eq_of_beq hpa))
  by_cases hid : ed.id ≠ ""
  · rw [if_pos hid]
    show (db.applicants ++ [(_ : Applicant)]).countP (fun a => a.email == normStr s) = 1
    rw [List.countP_append, hcount0, List.countP_cons, List.countP_nil]
    simp
  · rw [if_neg hid]
    show (db.applicants ++ [(_ : Applicant)]).countP (fun a => a.email == normStr s) = 1
    rw [List.countP_append, hcount0, List.countP_cons, List.countP_nil]
    simp

/-! ## Claim C7 — communication idempotency -/

/-- C7: on any store whose table satisfies the UNIQUE(gmail_message_id)
constraint (at most one row for the id), inserting a communication entry
twice with the same external message id leaves exactly one row for that id —
ON CONFLICT DO NOTHING swallows the second insert (and the first too if the
id was already recorded). -/
theorem C7_communication_dedup (db : DBState) (cd cd2 : CommRow)
    (hid : cd2.gmail_message_id = cd.gmail_message_id)
    (hcount : db.communications.countP
      (fun c => c.gmail_message_id == cd.gmail_message_id) ≤ 1) :
    ((insert_communication (insert_communication db cd).2 cd2).2).communications.countP
      (fun c => c.gmail_message_id == cd.gmail_message_id) = 1 := by
  by_cases h1 : db.communications.any
      (fun c => c.gmail_message_id == cd.gmail_message_id) = true
  · rw [insert_comm_dup db cd h1, insert_comm_dup db cd2 (by rw [hid]; exact h1)]
    have hpos : 0 < db.communications.countP
        (fun c => c.gmail_message_id == cd.gmail_message_id) := by
      rcases List.any_eq_true.mp h1 with ⟨c, hc, hpc⟩
      exact List.countP_pos_iff.mpr ⟨c, hc, hpc⟩
    omega
  · rw [insert_comm_new db cd h1]
    have h2 : ({ db with communications := db.communications ++ [cd] } :
        DBState).communications.any
        (fun c => c.gmail_message_id == cd2.gmail_message_id) = true := by
      rw [hid]
      refine List.any_eq_true.mpr
        ⟨cd, List.mem_append_right _ (List.mem_singleton_self cd), ?_⟩
      exact beq_self_eq_true _
    rw [insert_comm_dup _ cd2 h2]
    have h0 : db.communications.countP
        (fun c => c.gmail_message_id == cd.gmail_message_id) = 0 :=
      List.countP_eq_zero.mpr
        (fun c hc hpc => h1 (List.any_eq_true.mpr ⟨c, hc, hpc⟩))
    show (db.communications ++ [cd]).countP
      (fun c => c.gmail_message_id == cd.gmail_message_id) = 1
    rw [List.countP_append, h0, List.countP_cons, List.countP_nil]
    simp

/-- C7 witness: two inserts of external id "g1" into the empty store leave
exactly one row for "g1". -/
theorem C7_witness :
    ((insert_communication (insert_communication emptyDB
        ⟨1, "g1", "a@b.c", "s", "b", "Incoming"⟩).2
        ⟨1, "g1", "a@b.c", "s2", "b2", "Incoming"⟩).2).communications.countP
      (fun c => c.gmail_message_id == "g1") = 1 :=
  C7_communication_dedup emptyDB ⟨1, "g1", "a@b.c", "s", "b", "Incoming"⟩
    ⟨1, "g1", "a@b.c", "s2", "b2", "Incoming"⟩ rfl (by decide)

/-! ## Claim C5 — applicant email normalisation and uniqueness -/

/-- C5: senders that differ only by letter case or surrounding whitespace
normalise identically (`strip().lower()`), so two inserts built from them
leave at most one applicant row with that normalised email; and a profile
whose email is absent or empty is never persisted — the call returns no id
and the store is unchanged. -/
theorem C5_email_uniqueness (db : DBState) (s1 s2 : String)
    (ad1 ad2 : ApplicantData) (ed1 ed2 : EmailData)
    (hnorm : normStr s1 = normStr s2)
    (hcount : db.applicants.countP (fun a => a.email == normStr s1) ≤ 1) :
    ((insert_applicant_and_communication
        (insert_applicant_and_communication db
          { ad1 with Email := some s1 } ed1).2
        { ad2 with Email := some s2 } ed2).2).applicants.countP
      (fun a => a.email == normStr s2) ≤ 1 ∧
    (∀ (db2 : DBState) (ad : ApplicantData) (ed : EmailData),
      ad.Email = none ∨ ad.Email = some "" →
      insert_applicant_and_communication db2 ad ed = (none, db2)) := by
  constructor
  · rw [← hnorm]
    exact insertAC_countP_le _ _ _ _ (insertAC_countP_le _ _ _ _ hcount)
  · intro db2 ad ed h
    rcases h with h | h <;>
      simp [insert_applicant_and_communication, normEmail, h]

/-- C5 witness: " A@B.c " and "a@b.c" normalise to the same address, the two
inserts leave one row, and an email-less profile is rejected unchanged. -/
theorem C5_witness :
    ((insert_applicant_and_communication
        (insert_applicant_and_communication emptyDB
          ⟨some "N1", some " A@B.c ", none, none, none, none, none⟩
          ⟨"m1", " A@B.c ", "s", "b", none⟩).2
        ⟨some "N2", some "a@b.c", none, none, none, none, none⟩
        ⟨"m2", "a@b.c", "s2", "b2", none⟩).2).applicants.countP
      (fun a => a.email == normStr "a@b.c") ≤ 1 ∧
    insert_applicant_and_communication emptyDB
      ⟨some "N3", none, none, none, none, none, none⟩
      ⟨"m3", "x", "s", "b", none⟩ = (none, emptyDB) := by
  constructor
  · exact (C5_email_uniqueness emptyDB " A@B.c " "a@b.c"
      ⟨some "N1", none, none, none, none, none, none⟩
      ⟨some "N2", none, none, none, none, none, none⟩
      ⟨"m1", " A@B.c ", "s", "b", none⟩ ⟨"m2", "a@b.c", "s2", "b2", none⟩
      (by decide) (by decide)).1
  · exact (C5_email_uniqueness emptyDB " A@B.c " "a@b.c"
      ⟨some "N1", none, none, none, none, none, none⟩
      ⟨some "N2", none, none, none, none, none, none⟩
      ⟨"m1", " A@B.c ", "s", "b", none⟩ ⟨"m2", "a@b.c", "s2", "b2", none⟩
      (by decide) (by decide)).2 emptyDB
      ⟨some "N3", none, none, none, none, none, none⟩
      ⟨"m3", "x", "s", "b", none⟩ (Or.inl rfl)

/-! ## Lemmas about the processing engine -/

/-- `_process_single_email` never touches the per-run id set. -/
theorem processSingleEmail_runState (classify : String → Option AIData)
    (w : World) (msgId : String) :
    (processSingleEmail classify w msgId).runState = w.runState := by
  unfold processSingleEmail
  split
  · rfl
  · split
    · rfl
    · split
      · rfl
      · split
        · rfl
        · rfl

/-- Loop body of `_process_new_applications` on a message not yet in the run
set: process it, push its id, count it. -/
theorem processNAStep_not_in (classify : String → Option AIData) (k : Nat)
    (w : World) (m : Message) (h : m.id ∉ w.runState) :
    processNAStep classify (k, w) m =
      (k + 1, { processSingleEmail classify w m.id with
                runState := m.id :: (processSingleEmail classify w m.id).runState }) := by
  unfold processNAStep
  rw [if_neg h]

/-- The new-application counter counts one per message whose id was not yet
in the run set, whatever `_process_single_email` did for it. -/
theorem processNA_loop_count (classify : String → Option AIData) :
    ∀ (msgs : List Message) (k : Nat) (w : World),
      (msgs.map (fun m => m.id)).Nodup →
      (∀ m ∈ msgs, m.id ∉ w.runState) →
      (msgs.foldl (processNAStep classify) (k, w)).1 = k + msgs.length := by
  intro msgs
  induction msgs with
  | nil => intro k w _ _; simp
  | cons m rest ih =>
    intro k w hnd hdisj
    rw [List.foldl_cons,
      processNAStep_not_in classify k w m (hdisj m (List.mem_cons_self m rest))]
    simp only [List.map_cons, List.nodup_cons, List.mem_map] at hnd
    rw [ih (k + 1) _ hnd.2 ?_]
    · simp only [List.length_cons]
      omega
    · intro m2 hm2 hmem
      rw [show ({ processSingleEmail classify w m.id with
            runState := m.id :: (processSingleEmail classify w m.id).runState } :
            World).runState = m.id :: (processSingleEmail classify w m.id).runState
          from rfl, processSingleEmail_runState] at hmem
      rcases List.mem_cons.mp hmem with heq | hmem2
      · exact hnd.1 ⟨m2, hm2, heq⟩
      · exact hdisj m2 (List.mem_cons_of_mem m hm2) hmem2

/-! ## Claim C6 — what the new-application count counts -/

/-- C6 (counterexample): one unread message without any attachment is marked
read and creates no applicant, yet `_process_new_applications` still counts
it — the counter is incremented unconditionally in the loop (line 49), and
`_process_single_email` returns nothing the caller could branch on. -/
theorem C6_counterexample :
    (processNewApplications (fun _ => none)
      ⟨[⟨"m1", false, "a@b.c", "s", "b", none, none, none, ""⟩], emptyDB, []⟩).1 = 1 ∧
    (processNewApplications (fun _ => none)
      ⟨[⟨"m1", false, "a@b.c", "s", "b", none, none, none, ""⟩], emptyDB,
        []⟩).2.db.applicants = [] := by
  decide

/-- C6 (amended): the count `_process_new_applications` reports equals the
number of distinct unread messages handled this run — every unread message
whose id is not already in the run set is counted, whether it produced an
applicant, was a duplicate, lacked an attachment or failed classification. -/
theorem C6_processed_count (classify : String → Option AIData) (w : World)
    (hnodup : ((fetch_unread_emails w.mailbox).map (fun m => m.id)).Nodup)
    (hrs : w.runState = []) :
    (processNewApplications classify w).1 = (fetch_unread_emails w.mailbox).length := by
  unfold processNewApplications
  have hdisj : ∀ m ∈ fetch_unread_emails w.mailbox, m.id ∉ w.runState := by
    intro m hm
    rw [hrs]
    exact List.not_mem_nil _
  rw [processNA_loop_count classify (fetch_unread_emails w.mailbox) 0 w hnodup hdisj]
  omega

/-- C6 witness: the count over a single no-attachment unread message is the
length of the unread list (one), although no applicant was created. -/
theorem C6_witness :
    (processNewApplications (fun _ => none)
      ⟨[⟨"m2", false, "a@b.c", "s", "b", none, none, none, ""⟩], emptyDB, []⟩).1 =
      (fetch_unread_emails
        [⟨"m2", false, "a@b.c", "s", "b", none, none, none, ""⟩]).length :=
  C6_processed_count (fun _ => none)
    ⟨[⟨"m2", false, "a@b.c", "s", "b", none, none, none, ""⟩], emptyDB, []⟩
    (by decide) rfl

/-- Content lookup on a one-message mailbox. -/
theorem get_content_single (m : Message) : get_email_content [m] m.id = some m := by
  simp [get_email_content, List.find?_cons]

/-- Marking the only message of the mailbox read. -/
theorem mark_read_single (m : Message) :
    mark_as_read [m] m.id = [{ m with read := true }] := by
  simp [mark_as_read]

/-- `_process_single_email` on a message with an attachment whose
classification fails (or yields an empty name) has no side effect at all:
the message stays unread and the store is untouched. -/
theorem pse_single_fail (cl : String → Option AIData) (m : Message) (db : DBState)
    (rs : List String) (p : String) (hatt : m.attachment = some p)
    (hfail : ∀ d, cl m.id = some d → d.Name = "") :
    processSingleEmail cl ⟨[m], db, rs⟩ m.id = ⟨[m], db, rs⟩ := by
  unfold processSingleEmail
  rw [show (⟨[m], db, rs⟩ : World).mailbox = [m] from rfl]
  rw [get_content_single m]
  dsimp only
  rw [hatt]
  dsimp only
  cases hcl : cl m.id with
  | none => rfl
  | some d =>
    dsimp only
    rw [if_pos (hfail d hcl)]

/-- `_process_single_email` on a message with an attachment whose
classification yields a usable name: the combined store insert runs and the
message is marked read. -/
theorem pse_single_success (cl : String → Option AIData) (m : Message) (db : DBState)
    (rs : List String) (p : String) (hatt : m.attachment = some p)
    (d : AIData) (hd : cl m.id = some d) (hname : d.Name ≠ "") :
    processSingleEmail cl ⟨[m], db, rs⟩ m.id =
      ⟨[{ m with read := true }],
       (insert_applicant_and_communication db
         ⟨some d.Name, some m.sender, some d.Phone, some d.Domain, some d.Education,
          some d.JobHistory, m.driveUrl⟩ (emailDataOf m)).2, rs⟩ := by
  unfold processSingleEmail
  rw [show (⟨[m], db, rs⟩ : World).mailbox = [m] from rfl]
  rw [get_content_single m]
  dsimp only
  rw [hatt]
  dsimp only
  rw [hd]
  dsimp only
  rw [if_neg hname]
  rw [mark_read_single m]
  rw [hatt]

/-- One run of `_process_new_applications` over a fresh engine and a
one-message mailbox: the message is processed once and its id recorded. -/
theorem pna_single (cl : String → Option AIData) (m : Message) (db : DBState)
    (hread : m.read = false) :
    processNewApplications cl ⟨[m], db, []⟩ =
      (1, { processSingleEmail cl ⟨[m], db, []⟩ m.id with
            runState := m.id :: (processSingleEmail cl ⟨[m], db, []⟩ m.id).runState }) := by
  unfold processNewApplications
  have hfetch : fetch_unread_emails ([m] : List Message) = [m] := by
    simp [fetch_unread_emails, hread]
  rw [show (⟨[m], db, []⟩ : World).mailbox = ([m] : List Message) from rfl, hfetch,
    List.foldl_cons, processNAStep_not_in cl 0 ⟨[m], db, []⟩ m (List.not_mem_nil _),
    List.foldl_nil]

/-! ## Claim C1 — retry on classification failure -/

/-- C1: an unread message with an attachment whose classification fails (or
returns no usable name) is left unread with the store untouched by the run;
a later run (fresh engine, so a fresh `processed_message_ids_this_run` set)
in which classification returns a usable name creates exactly one applicant
with the message sender's normalised email and marks the message read.  The
hypotheses state the retry scenario: sender non-empty and not yet stored,
message id not yet recorded as a communication. -/
theorem C1_retry_on_failure (cl1 cl2 : String → Option AIData) (m : Message)
    (db : DBState) (p : String)
    (hread : m.read = false)
    (hatt : m.attachment = some p)
    (hfail : ∀ d, cl1 m.id = some d → d.Name = "")
    (d : AIData) (hd : cl2 m.id = some d) (hname : d.Name ≠ "")
    (hsender : m.sender ≠ "") (hnorm : normStr m.sender ≠ "")
    (hnodup : ∀ a ∈ db.applicants, a.email ≠ normStr m.sender)
    (hcomm : ∀ c ∈ db.communications, c.gmail_message_id ≠ m.id) :
    (processNewApplications cl1 ⟨[m], db, []⟩).2.mailbox = [m] ∧
    (processNewApplications cl1 ⟨[m], db, []⟩).2.db = db ∧
    (processNewApplications cl2
        ⟨(processNewApplications cl1 ⟨[m], db, []⟩).2.mailbox,
         (processNewApplications cl1 ⟨[m], db, []⟩).2.db,
         []⟩).2.db.applicants.countP (fun a => a.email == normStr m.sender) = 1 ∧
    (processNewApplications cl2
        ⟨(processNewApplications cl1 ⟨[m], db, []⟩).2.mailbox,
         (processNewApplications cl1 ⟨[m], db, []⟩).2.db,
         []⟩).2.mailbox = [{ m with read := true }] := by
  have hrun1 : processNewApplications cl1 ⟨[m], db, []⟩ = (1, ⟨[m], db, [m.id]⟩) := by
    rw [pna_single cl1 m db hread, pse_single_fail cl1 m db [] p hatt hfail]
  have hrun2 : processNewApplications cl2 ⟨[m], db, []⟩ =
      (1, ⟨[{ m with read := true }],
           (insert_applicant_and_communication db
             ⟨some d.Name, some m.sender, some d.Phone, some d.Domain, some d.Education,
              some d.JobHistory, m.driveUrl⟩ (emailDataOf m)).2, [m.id]⟩) := by
    rw [pna_single cl2 m db hread, pse_single_success cl2 m db [] p hatt d hd hname]
  rw [hrun1]
  refine ⟨rfl, rfl, ?_, ?_⟩
  · show (processNewApplications cl2
        ⟨[m], db, []⟩).2.db.applicants.countP (fun a => a.email == normStr m.sender) = 1
    rw [hrun2]
    exact insertAC_new_email db _ (emailDataOf m) m.sender rfl hsender hnorm hnodup hcomm
  · show (processNewApplications cl2 ⟨[m], db, []⟩).2.mailbox = [{ m with read := true }]
    rw [hrun2]

/-- C1 witness: a concrete message whose classification fails on run 1 and
succeeds on run 2 over the empty store. -/
theorem C1_witness :
    (processNewApplications (fun _ => none)
      ⟨[⟨"w1", false, "A@B.c", "s", "b", none, some "cv.pdf", some "u", ""⟩],
        emptyDB, []⟩).2.mailbox =
      [⟨"w1", false, "A@B.c", "s", "b", none, some "cv.pdf", some "u", ""⟩] ∧
    (processNewApplications (fun _ => none)
      ⟨[⟨"w1", false, "A@B.c", "s", "b", none, some "cv.pdf", some "u", ""⟩],
        emptyDB, []⟩).2.db = emptyDB ∧
    (processNewApplications (fun _ => some ⟨"Alice", "", "", "", "", ""⟩)
      ⟨(processNewApplications (fun _ => none)
          ⟨[⟨"w1", false, "A@B.c", "s", "b", none, some "cv.pdf", some "u", ""⟩],
            emptyDB, []⟩).2.mailbox,
       (processNewApplications (fun _ => none)
          ⟨[⟨"w1", false, "A@B.c", "s", "b", none, some "cv.pdf", some "u", ""⟩],
            emptyDB, []⟩).2.db,
       []⟩).2.db.applicants.countP (fun a => a.email == normStr "A@B.c") = 1 ∧
    (processNewApplications (fun _ => some ⟨"Alice", "", "", "", "", ""⟩)
      ⟨(processNewApplications (fun _ => none)
          ⟨[⟨"w1", false, "A@B.c", "s", "b", none, some "cv.pdf", some "u", ""⟩],
            emptyDB, []⟩).2.mailbox,
       (processNewApplications (fun _ => none)
          ⟨[⟨"w1", false, "A@B.c", "s", "b", none, some "cv.pdf", some "u", ""⟩],
            emptyDB, []⟩).2.db,
       []⟩).2.mailbox =
      [⟨"w1", true, "A@B.c", "s", "b", none, some "cv.pdf", some "u", ""⟩] :=
  C1_retry_on_failure (fun _ => none) (fun _ => some ⟨"Alice", "", "", "", "", ""⟩)
    ⟨"w1", false, "A@B.c", "s", "b", none, some "cv.pdf", some "u", ""⟩
    emptyDB "cv.pdf" rfl rfl (fun d h => nomatch h) ⟨"Alice", "", "", "", "", ""⟩
    rfl (by decide) (by decide) (by decide) (by decide) (by decide)

/-! ## Claim C3 — thread healing on a 404 -/

/-- C3 (code evaluated at the failing input): the store has one active
thread (applicant 1, thread "t1"), and the mail source raises an HttpError
with status 404 for it.  Because `processing_engine.py` never imports
`HttpError`, evaluating its `except HttpError` clause raises `NameError`, so
`_process_replies` aborts with an error instead of clearing the thread id and
continuing — the healing branch written at lines 61–63 is unreachable, as is
the log-and-skip branch for other transport errors. -/
theorem C3_thread_healing_bug :
    processReplies (fun _ => FetchResult.raises true 404) (fun _ => none)
        ⟨[], ⟨[⟨1, some "A", "a@b.c", none, none, none, none, none, some "t1", "New"⟩],
              [], [(1, "New")], 2⟩, []⟩
      = .error "NameError: name HttpError is not defined" ∧
    get_active_threads
        ⟨[⟨1, some "A", "a@b.c", none, none, none, none, none, some "t1", "New"⟩],
         [], [(1, "New")], 2⟩ = [(1, "t1")] ∧
    engineResolvesHttpError = false := by
  refine ⟨rfl, rfl, rfl⟩
